import Mathlib

/-!
# File commands of the BASIC interpreter (`src/pbasic/bas_file.c`)

A shallow embedding of `file_cd`, `file_kill`, `file_mkdir`, `file_copy` and
`file_rename`.  The FAT driver and the byte-level I/O calls are an explicit
environment `Env σ` over an arbitrary driver state `σ`; every call the commands make
is also logged, so that statements about *which* calls are made can be expressed.
-/

namespace PBasic

/-! ## C strings -/

/-- The terminating NUL character of a C string. -/
def NUL : Char := Char.ofNat 0

/-- The characters of a `char *` up to, and without, the first NUL. -/
def cstr (p : List Char) : List Char := p.takeWhile (fun c => c != NUL)

/-- C library `strlen`: the number of characters before the first NUL. -/
def strlen (p : List Char) : Nat := (cstr p).length

/-- Interpreter string object handed out by `stringeval()`: `ptr` identifies the
    allocation, `chars` are its `strlen` characters. -/
structure STR where
  ptr : Nat
  chars : List Char
deriving DecidableEq, Repr

/-- Macro `NULL_TERMINATE(st)`: `st->strval` once its terminator has been stored behind the
    characters of the string. -/
def NULL_TERMINATE (st : STR) : List Char := st.chars ++ [NUL]

/-! ## Driver calls, results and the world -/

/-- Result code `FR_OK` of FatFs: zero. -/
def FR_OK : Nat := 0

/-- Flag `O_RDONLY` of `fcntl.h`. -/
def O_RDONLY : Nat := 0
/-- Flag `O_RDWR` of `fcntl.h`. -/
def O_RDWR : Nat := 2
/-- Flag `O_CREAT` of `fcntl.h`. -/
def O_CREAT : Nat := 512

/-- One call into the low-level I/O layer or the FAT driver, with its arguments and
    the value it returned. -/
inductive Call where
  | c_open (path : List Char) (flags : Nat) (ret : Int)
  | c_close (fd : Int)
  | c_read (fd : Int) (nbytes : Nat) (ret : Int)
  | c_write (fd : Int) (nbytes : Nat) (ret : Int)
  | f_opendir (path : List Char) (ret : Nat)
  | f_chdrive (vol : Int) (ret : Nat)
  | f_chdir (path : List Char) (ret : Nat)
  | f_unlink (path : List Char) (ret : Nat)
  | f_mkdir (path : List Char) (ret : Nat)
  | f_rename (old new : List Char) (ret : Nat)
deriving DecidableEq, Repr

/-- The services `bas_file.c` consumes, as state transformers over the driver state.
    `c_read` receives the buffer and returns the buffer as the call leaves it;
    `c_write` receives the buffer and the byte count. -/
structure Env (σ : Type) where
  c_open : List Char → Nat → σ → Int × σ
  c_close : Int → σ → σ
  c_read : Int → List Char → Nat → σ → (Int × List Char) × σ
  c_write : Int → List Char → Nat → σ → Int × σ
  f_opendir : List Char → σ → Nat × σ
  f_chdrive : Int → σ → Nat × σ
  f_chdir : List Char → σ → Nat × σ
  f_unlink : List Char → σ → Nat × σ
  f_mkdir : List Char → σ → Nat × σ
  f_rename : List Char → List Char → σ → Nat × σ

/-- What the `printf` of line 167 is given, as far as integers go: the total and the
    frequency the two floating-point arguments are computed from. -/
structure CopyReport where
  tot : Int
  freq_khz : Option Nat
deriving DecidableEq, Repr

/-- Everything a command can change: the driver state, the log of calls made, the log
    of `FREE_STR` releases, and what COPY printed. -/
structure World (σ : Type) where
  drv : σ
  calls : List Call
  freed : List STR
  printed : List CopyReport
deriving DecidableEq, Repr

/-- How a piece of a command ends: control continues with a value, `error(code)` has
    left the command, or a loop is still running when its fuel is used up. -/
inductive Res (α : Type) where
  | ret (a : α)
  | err (code : Nat)
  | spin
deriving DecidableEq, Repr

/-- A command fragment: a world transformer with a `Res`. -/
def Cmd (σ α : Type) : Type := World σ → Res α × World σ

/-- Sequencing: the second fragment runs only when the first one returned. -/
def Cmd.bind {σ α β : Type} (m : Cmd σ α) (f : α → Cmd σ β) : Cmd σ β :=
  fun w =>
    match m w with
    | (Res.ret a, w1) => f a w1
    | (Res.err c, w1) => (Res.err c, w1)
    | (Res.spin, w1) => (Res.spin, w1)

instance instMonadCmd {σ : Type} : Monad (Cmd σ) where
  pure a := fun w => (Res.ret a, w)
  bind := Cmd.bind

/-- Modelled from the spec: `error(code)` of `bas.h`, a non-local control transfer back
    into the interpreter's dispatch loop carrying the numeric code. -/
def error {σ α : Type} (code : Nat) : Cmd σ α := fun w => (Res.err code, w)

/-- Modelled from the spec: `check()` of the interpreter, which confirms the statement
    terminator and fails with the syntax error otherwise; `ok` says whether the
    terminator is there, `SYNTAX` is the value of the macro of that name. -/
def check {σ : Type} (SYNTAX : Nat) (ok : Bool) : Cmd σ Unit :=
  if ok then pure () else error SYNTAX

/-- Macro `FREE_STR(st)`: the release is appended to the log of releases. -/
def FREE_STR {σ : Type} (st : STR) : Cmd σ Unit :=
  fun w => (Res.ret (), { w with freed := w.freed ++ [st] })

/-- Call of `open`, logged. -/
def c_open {σ : Type} (E : Env σ) (path : List Char) (flags : Nat) : Cmd σ Int :=
  fun w =>
    let r := E.c_open path flags w.drv
    (Res.ret r.1, { w with drv := r.2, calls := w.calls ++ [Call.c_open path flags r.1] })

/-- Call of `close`, logged; its return value is not looked at. -/
def c_close {σ : Type} (E : Env σ) (fd : Int) : Cmd σ Unit :=
  fun w =>
    (Res.ret (), { w with drv := E.c_close fd w.drv, calls := w.calls ++ [Call.c_close fd] })

/-- Call of `read`, logged; it yields the count and the buffer as the call leaves it. -/
def c_read {σ : Type} (E : Env σ) (fd : Int) (buf : List Char) (nbytes : Nat) :
    Cmd σ (Int × List Char) :=
  fun w =>
    let r := E.c_read fd buf nbytes w.drv
    (Res.ret r.1, { w with drv := r.2, calls := w.calls ++ [Call.c_read fd nbytes r.1.1] })

/-- Call of `write`, logged. -/
def c_write {σ : Type} (E : Env σ) (fd : Int) (buf : List Char) (nbytes : Nat) : Cmd σ Int :=
  fun w =>
    let r := E.c_write fd buf nbytes w.drv
    (Res.ret r.1, { w with drv := r.2, calls := w.calls ++ [Call.c_write fd nbytes r.1] })

/-- Call of `f_opendir`, logged. -/
def f_opendir {σ : Type} (E : Env σ) (path : List Char) : Cmd σ Nat :=
  fun w =>
    let r := E.f_opendir path w.drv
    (Res.ret r.1, { w with drv := r.2, calls := w.calls ++ [Call.f_opendir path r.1] })

/-- Call of `f_chdrive`, logged. -/
def f_chdrive {σ : Type} (E : Env σ) (vol : Int) : Cmd σ Nat :=
  fun w =>
    let r := E.f_chdrive vol w.drv
    (Res.ret r.1, { w with drv := r.2, calls := w.calls ++ [Call.f_chdrive vol r.1] })

/-- Call of `f_chdir`, logged. -/
def f_chdir {σ : Type} (E : Env σ) (path : List Char) : Cmd σ Nat :=
  fun w =>
    let r := E.f_chdir path w.drv
    (Res.ret r.1, { w with drv := r.2, calls := w.calls ++ [Call.f_chdir path r.1] })

/-- Call of `f_unlink`, logged. -/
def f_unlink {σ : Type} (E : Env σ) (path : List Char) : Cmd σ Nat :=
  fun w =>
    let r := E.f_unlink path w.drv
    (Res.ret r.1, { w with drv := r.2, calls := w.calls ++ [Call.f_unlink path r.1] })

/-- Call of `f_mkdir`, logged. -/
def f_mkdir {σ : Type} (E : Env σ) (path : List Char) : Cmd σ Nat :=
  fun w =>
    let r := E.f_mkdir path w.drv
    (Res.ret r.1, { w with drv := r.2, calls := w.calls ++ [Call.f_mkdir path r.1] })

/-- Call of `f_rename`, logged. -/
def f_rename {σ : Type} (E : Env σ) (old new : List Char) : Cmd σ Nat :=
  fun w =>
    let r := E.f_rename old new w.drv
    (Res.ret r.1, { w with drv := r.2, calls := w.calls ++ [Call.f_rename old new r.1] })

/-! ## The commands -/

/-- The `fail:` label shared by `file_cd`, `file_kill`, `file_mkdir` and `file_rename`:
    `FREE_STR(st); error(15);`. -/
def fail {σ α : Type} (st : STR) : Cmd σ α := do
  FREE_STR st
  error 15

/-- Function `file_cd()`, lines 12-55.  `st` is what `stringeval()` returned and `term_ok` whether
    `check()` finds the statement terminator.  The drive branch yields the value of
    `start`; characters are compared by their codes. -/
def file_cd {σ : Type} (E : Env σ) (SYNTAX : Nat) (st : STR) (term_ok : Bool) : Cmd σ Unit := do
  let strval := NULL_TERMINATE st
  check SYNTAX term_ok
  let start ←
    (if 2 ≤ strlen strval ∧ strval.getD 1 NUL = ':' then do
      let buf := [strval.getD 0 NUL, ':', NUL]
      if (buf.getD 0 NUL).toNat < ('0' : Char).toNat ∨ (buf.getD 0 NUL).toNat > ('1' : Char).toNat then
        fail st
      else do
        let fres ← c_open E (cstr buf) 0
        if 0 ≤ fres then
          c_close E fres
        let fres ← f_opendir E (cstr buf)
        if fres ≠ FR_OK then
          fail st
        else do
          let fres ← f_chdrive E (((buf.getD 0 NUL).toNat : Int) - (('0' : Char).toNat : Int))
          if fres ≠ FR_OK then
            fail st
          else
            pure 2
    else
      pure 0 : Cmd σ Nat)
  if start < strlen strval then do
    let fres ← f_chdir E (cstr (strval.drop start))
    if fres ≠ FR_OK then
      fail st
    else
      FREE_STR st
  else
    FREE_STR st

/-- C library `strcpy(buf, src)`: the destination holds the characters of `src` and the
    terminator; what lies behind the terminator is not determined by the call.  The
    capacity of the destination array is not part of the model. -/
def strcpy (src : List Char) : List Char := cstr src ++ [NUL]

/-- A value as a 32-bit two's complement `int` holds it. -/
def wrap32 (x : Int) : Int := (x + 2147483648) % 4294967296 - 2147483648

/-- The divisor `(tmp >> 29) + 1` of line 124; `>>` on `int` is the arithmetic shift. -/
def freq_divisor (tmp : Int) : Int := (tmp >>> (29 : Nat)) + 1

/-- Line 124: `freq_khz = ((tmp >> 16) & 0xfff) * 1000 / ((tmp >> 29) + 1)`, computed in
    `int` (the division truncates) and stored in a `uint32_t`; `none` when the division
    is by zero.  Masking a two's complement value with `0xfff` keeps its residue modulo
    4096. -/
def freq_khz (tmp : Int) : Option Nat :=
  if freq_divisor tmp = 0 then none
  else some (Int.toNat ((Int.tdiv (((tmp >>> (16 : Nat)) % 4096) * 1000) (freq_divisor tmp)) % 4294967296))

/-- The `sizeof(buf)` of `file_copy`. -/
def BUFSIZE : Nat := 16384

/-- The `do ... while (got > 0)` loop of lines 148-162, run for at most `fuel` rounds;
    it yields `tot`.  `tot += wrote` is 32-bit `int` arithmetic. -/
def copy_loop {σ : Type} (E : Env σ) (from_fd to_fd : Int) :
    Nat → List Char → Int → Cmd σ Int
  | 0, _, _ => fun w => (Res.spin, w)
  | fuel + 1, buf, tot => do
    let r ← c_read E from_fd buf BUFSIZE
    let got := r.1
    let buf := r.2
    if got < 0 then do
      c_close E from_fd
      c_close E to_fd
      error 30
    else do
      let wrote ← c_write E to_fd buf got.toNat
      if wrote < got then do
        c_close E from_fd
        c_close E to_fd
        error 60
      else
        let tot := wrap32 (tot + wrote)
        if 0 < got then
          copy_loop E from_fd to_fd fuel buf tot
        else
          pure tot

/-- The `printf` of line 167. -/
def printf_copied {σ : Type} (tot : Int) (freq : Option Nat) : Cmd σ Unit :=
  fun w => (Res.ret (), { w with printed := w.printed ++ [CopyReport.mk tot freq] })

/-- Function `file_copy()`, lines 113-172.  `config` is the value of the processor configuration
    register, `st1`, `st2` the two strings `stringeval()` returns, `tok` what `getch()`
    returns between them, `term_ok` whether `check()` finds the terminator, and `fuel`
    bounds the rounds of the copy loop.  The cycle counter readings feed only the
    floating-point arguments of the `printf` and are left out. -/
def file_copy {σ : Type} (E : Env σ) (SYNTAX : Nat) (config : Nat) (st1 : STR) (tok : Char)
    (st2 : STR) (term_ok : Bool) (fuel : Nat) : Cmd σ Unit := do
  let tmp := wrap32 config
  let freq := freq_khz tmp
  let buf := strcpy (NULL_TERMINATE st1)
  FREE_STR st1
  if tok ≠ ',' then
    error SYNTAX
  else do
    let strval2 := NULL_TERMINATE st2
    check SYNTAX term_ok
    let from_fd ← c_open E (cstr buf) O_RDONLY
    if from_fd < 0 then
      error 15
    else do
      let to_fd ← c_open E (cstr strval2) (O_CREAT ||| O_RDWR)
      FREE_STR st2
      if to_fd < 0 then do
        c_close E from_fd
        error 14
      else do
        let tot ← copy_loop E from_fd to_fd fuel buf 0
        c_close E from_fd
        c_close E to_fd
        printf_copied tot freq

/-! ## A simulated volume

One instance of `Env`, used to state what COPY does to file contents and to run the
commands on concrete inputs. -/

/-- State of the simulated volume: one source file, one destination file, the offsets
    of their handles, and the driver's drive and directory bookkeeping. -/
structure SimFS where
  srcName : List Char
  src : Option (List Char)
  rpos : Nat
  dstName : List Char
  dst : Option (List Char)
  wpos : Nat
  nread : Nat
  drive : Int
  drives : List Int
  cwd : List Char
  dirs : List (List Char)
deriving DecidableEq, Repr

/-- The volume after the source has been opened: its handle is at offset 0. -/
def SimFS.open_src (s : SimFS) : SimFS := { s with rpos := 0 }

/-- The volume after the destination has been opened with content `d` (what it held,
    or nothing when it has just been created): its handle is at offset 0. -/
def SimFS.open_dst (s : SimFS) (d : List Char) : SimFS := { s with dst := some d, wpos := 0 }

/-- The volume after a `read` of `k` bytes: the source offset has moved on. -/
def SimFS.advance (s : SimFS) (k : Nat) : SimFS :=
  { s with rpos := s.rpos + k, nread := s.nread + 1 }

/-- The volume after a `write` of the `n` bytes `data` over the destination content `d`,
    at the offset of the handle. -/
def SimFS.store (s : SimFS) (d data : List Char) (n : Nat) : SimFS :=
  { s with dst := some (d.take s.wpos ++ data ++ d.drop (s.wpos + n)), wpos := s.wpos + n }

/-- Modelled from the spec: the byte-oriented open/close/read/write services and the
    FAT driver calls, which live outside `bas_file.c`.  `open` hands out handle 3 for the
    source and handle 4 for the destination, creates the destination empty when it is
    absent and `O_CREAT` is given, and never truncates; the `k`-th `read` delivers
    `chunk k` bytes, but no more than asked for and no more than remain; `write` stores
    all the bytes it is given at the handle's offset, over what is there. -/
def simEnv (chunk : Nat → Nat) : Env SimFS where
  c_open := fun path flags s =>
    if path = s.srcName then
      match s.src with
      | some _ => (3, s.open_src)
      | none => (-1, s)
    else if path = s.dstName then
      match s.dst with
      | some d => (4, s.open_dst d)
      | none => if flags &&& O_CREAT = 0 then (-1, s) else (4, s.open_dst [])
    else (-1, s)
  c_close := fun _ s => s
  c_read := fun fd buf nbytes s =>
    if fd = 3 then
      match s.src with
      | some content =>
        let avail := content.drop s.rpos
        let k := min (chunk s.nread) (min nbytes avail.length)
        (((k : Int), avail.take k ++ buf.drop k), s.advance k)
      | none => ((-1, buf), s)
    else ((-1, buf), s)
  c_write := fun fd buf nbytes s =>
    if fd = 4 then
      match s.dst with
      | some d => ((nbytes : Int), s.store d (buf.take nbytes) nbytes)
      | none => (-1, s)
    else (-1, s)
  f_opendir := fun path s => if path ∈ s.dirs then (FR_OK, s) else (5, s)
  f_chdrive := fun vol s => if vol ∈ s.drives then (FR_OK, { s with drive := vol }) else (11, s)
  f_chdir := fun path s => if path ∈ s.dirs then (FR_OK, { s with cwd := path }) else (5, s)
  f_unlink := fun path s =>
    if path = s.dstName ∧ s.dst.isSome then (FR_OK, { s with dst := none }) else (4, s)
  f_mkdir := fun path s => if path ∈ s.dirs then (8, s) else (FR_OK, { s with dirs := path :: s.dirs })
  f_rename := fun old new s =>
    if old = s.dstName ∧ s.dst.isSome then (FR_OK, { s with dstName := new }) else (4, s)

/-- A small volume: source file `a` holding `abc`, no destination file `b` yet, drive 0
    with root directory `0:` and a directory `x`. -/
def demoFS : SimFS where
  srcName := ['a']
  src := some ['a', 'b', 'c']
  rpos := 0
  dstName := ['b']
  dst := none
  wpos := 0
  nread := 0
  drive := 1
  drives := [0, 1]
  cwd := ['/']
  dirs := [['0', ':'], ['1', ':'], ['x']]

/-- A world around a driver state, with empty logs. -/
def World.init {σ : Type} (s : σ) : World σ := ⟨s, [], [], []⟩

/-! ## Vocabulary of the statements -/

/-- The driver state behind the dummy open of `file_cd` (lines 33-35): the handle is
    closed when, and only when, the open returned one. -/
def touch_state {σ : Type} (E : Env σ) (buf : List Char) (s : σ) : σ :=
  if 0 ≤ (E.c_open buf 0 s).1 then E.c_close (E.c_open buf 0 s).1 (E.c_open buf 0 s).2
  else (E.c_open buf 0 s).2

/-- The calls the dummy open of `file_cd` makes. -/
def touch_calls {σ : Type} (E : Env σ) (buf : List Char) (s : σ) : List Call :=
  if 0 ≤ (E.c_open buf 0 s).1 then
    [Call.c_open buf 0 (E.c_open buf 0 s).1, Call.c_close (E.c_open buf 0 s).1]
  else [Call.c_open buf 0 (E.c_open buf 0 s).1]

/-- Whether a call is a `read` or a `write`. -/
def is_rw : Call → Bool
  | Call.c_read _ _ _ => true
  | Call.c_write _ _ _ => true
  | _ => false

/-- The failure a single call of COPY amounts to, if it is one: the source is the file
    opened read-only (15), the destination the other one (14), a `read` fails when its
    count is negative (30), a `write` when it wrote fewer bytes than it was given
    (60). -/
def copy_failure : Call → Option Nat
  | Call.c_open _ flags ret => if ret < 0 then some (if flags = O_RDONLY then 15 else 14) else none
  | Call.c_read _ _ ret => if ret < 0 then some 30 else none
  | Call.c_write _ nbytes ret => if ret < (nbytes : Int) then some 60 else none
  | _ => none

/-- The counts the `read` calls of a log returned, in order. -/
def read_counts (tr : List Call) : List Int :=
  tr.filterMap (fun c => match c with
    | Call.c_read _ _ ret => some ret
    | _ => none)

/-- The error codes a result carries: one for `error(code)`, none otherwise. -/
def verdict_codes {α : Type} : Res α → List Nat
  | Res.err c => [c]
  | _ => []

/-- The two `close` calls in front of `error(30)` and `error(60)`. -/
def closes_of {α : Type} (from_fd to_fd : Int) : Res α → List Call
  | Res.err _ => [Call.c_close from_fd, Call.c_close to_fd]
  | _ => []

/-- Handle accounting over a log of calls: a successful `open` adds its handle to the
    handles held, a `close` must find its handle among them and takes one occurrence
    away; `none` when a `close` hits a handle that is not held. -/
def audit : List Int → List Call → Option (List Int)
  | held, [] => some held
  | held, Call.c_open _ _ ret :: rest => if 0 ≤ ret then audit (ret :: held) rest else audit held rest
  | held, Call.c_close fd :: rest => if fd ∈ held then audit (held.erase fd) rest else none
  | held, _ :: rest => audit held rest

/-- A log is balanced when the accounting goes through and ends with no handle held. -/
def handles_balanced (tr : List Call) : Bool := audit [] tr == some []

/-! ## Lemmas on the plumbing -/

/-- Running a sequence is `Cmd.bind`. -/
theorem bind_run {σ α β : Type} (m : Cmd σ α) (f : α → Cmd σ β) (w : World σ) :
    (m >>= f) w = Cmd.bind m f w := rfl

/-- Running `pure` returns the value and leaves the world alone. -/
theorem pure_run {σ α : Type} (a : α) (w : World σ) :
    (pure a : Cmd σ α) w = (Res.ret a, w) := rfl

/-- The terminator stored by `NULL_TERMINATE` does not change the C string. -/
theorem cstr_append_NUL (p : List Char) : cstr (p ++ [NUL]) = cstr p := by
  unfold cstr
  induction p with
  | nil => simp [List.takeWhile]
  | cons c cs ih =>
    by_cases h : c = NUL
    · simp [List.takeWhile_cons, h]
    · simp [List.takeWhile_cons, h, ih]

/-- Taking the C string twice is taking it once. -/
theorem cstr_idem (p : List Char) : cstr (cstr p) = cstr p := by
  unfold cstr
  induction p with
  | nil => rfl
  | cons c cs ih =>
    by_cases h : c = NUL
    · simp [List.takeWhile_cons, h]
    · simp [List.takeWhile_cons, h, ih]

/-- The copy made by `strcpy` reads back as the C string of its source. -/
theorem cstr_strcpy (p : List Char) : cstr (strcpy p) = cstr p := by
  unfold strcpy
  rw [cstr_append_NUL, cstr_idem]

/-- A character other than `0` and `1` fails the range test of line 29. -/
theorem char_not_binary (c : Char) (h0 : c ≠ '0') (h1 : c ≠ '1') :
    c.toNat < ('0' : Char).toNat ∨ c.toNat > ('1' : Char).toNat := by
  have g0 : c.toNat ≠ 48 := fun e => h0 (Char.ext (UInt32.ext e))
  have g1 : c.toNat ≠ 49 := fun e => h1 (Char.ext (UInt32.ext e))
  show c.toNat < 48 ∨ c.toNat > 49
  omega

/-! ## CD -/

/-- A drive digit and a colon are part of the C string. -/
theorem cstr_drive (d : Char) (hd : d = '0' ∨ d = '1') (q : List Char) :
    cstr (d :: ':' :: q) = d :: ':' :: cstr q := by
  have h0 : ('0' != NUL) = true := by decide
  have h1 : ('1' != NUL) = true := by decide
  have h2 : (':' != NUL) = true := by decide
  rcases hd with rfl | rfl <;> simp [cstr, List.takeWhile_cons, h0, h1, h2]

/-- A leading NUL gives the empty C string. -/
theorem cstr_NUL_cons (q : List Char) : cstr (NUL :: q) = [] := by
  simp [cstr, List.takeWhile_cons]

set_option maxHeartbeats 1600000 in
/-- What `file_cd` does on a path that starts with a supported drive digit and a colon,
    call by call. -/
theorem file_cd_drive_run {σ : Type} (E : Env σ) (SYNTAX : Nat) (j : Nat) (d : Char)
    (q : List Char) (w : World σ) (hd : d = '0' ∨ d = '1') :
    file_cd E SYNTAX ⟨j, d :: ':' :: q⟩ true w =
      (let s1 := touch_state E [d, ':'] w.drv
       let c1 := w.calls ++ touch_calls E [d, ':'] w.drv
       let fr := w.freed ++ [⟨j, d :: ':' :: q⟩]
       let r1 := E.f_opendir [d, ':'] s1
       let c2 := c1 ++ [Call.f_opendir [d, ':'] r1.1]
       if r1.1 ≠ FR_OK then (Res.err 15, ⟨r1.2, c2, fr, w.printed⟩)
       else
         let r2 := E.f_chdrive ((d.toNat : Int) - (('0' : Char).toNat : Int)) r1.2
         let c3 := c2 ++ [Call.f_chdrive ((d.toNat : Int) - (('0' : Char).toNat : Int)) r2.1]
         if r2.1 ≠ FR_OK then (Res.err 15, ⟨r2.2, c3, fr, w.printed⟩)
         else if 0 < strlen q then
           let r3 := E.f_chdir (cstr q) r2.2
           (if r3.1 ≠ FR_OK then Res.err 15 else Res.ret (),
             ⟨r3.2, c3 ++ [Call.f_chdir (cstr q) r3.1], fr, w.printed⟩)
         else (Res.ret (), ⟨r2.2, c3, fr, w.printed⟩)) := by
  have hc : cstr [d, ':', NUL] = [d, ':'] := by
    rw [cstr_drive d hd, cstr_NUL_cons]
  have hc2 : cstr (d :: ':' :: (q ++ [NUL])) = d :: ':' :: cstr q := by
    rw [cstr_drive d hd, cstr_append_NUL]
  have hc3 : cstr (q ++ [NUL]) = cstr q := cstr_append_NUL q
  rcases hd with rfl | rfl
  · by_cases ho : 0 ≤ (E.c_open ['0', ':'] 0 w.drv).1 <;>
    by_cases h1 : (E.f_opendir ['0', ':'] (touch_state E ['0', ':'] w.drv)).1 = FR_OK <;>
    by_cases h2 : (E.f_chdrive 0 (E.f_opendir ['0', ':'] (touch_state E ['0', ':'] w.drv)).2).1 = FR_OK <;>
    by_cases h3 : 0 < (cstr q).length <;>
    by_cases h4 : (E.f_chdir (cstr q) (E.f_chdrive 0 (E.f_opendir ['0', ':'] (touch_state E ['0', ':'] w.drv)).2).2).1 = FR_OK <;>
    simp [touch_state, ho] at h1 h2 h3 h4 <;>
    simp [file_cd, bind_run, Cmd.bind, check, pure_run, NULL_TERMINATE,
        strlen, hc, hc2, hc3, c_open, c_close, f_opendir, f_chdir,
        f_chdrive, fail, FREE_STR, error, ite_apply, ho, touch_state, touch_calls, h1, h2, h3, h4]
  · by_cases ho : 0 ≤ (E.c_open ['1', ':'] 0 w.drv).1 <;>
    by_cases h1 : (E.f_opendir ['1', ':'] (touch_state E ['1', ':'] w.drv)).1 = FR_OK <;>
    by_cases h2 : (E.f_chdrive 1 (E.f_opendir ['1', ':'] (touch_state E ['1', ':'] w.drv)).2).1 = FR_OK <;>
    by_cases h3 : 0 < (cstr q).length <;>
    by_cases h4 : (E.f_chdir (cstr q) (E.f_chdrive 1 (E.f_opendir ['1', ':'] (touch_state E ['1', ':'] w.drv)).2).2).1 = FR_OK <;>
    simp [touch_state, ho] at h1 h2 h3 h4 <;>
    simp [file_cd, bind_run, Cmd.bind, check, pure_run, NULL_TERMINATE,
        strlen, hc, hc2, hc3, c_open, c_close, f_opendir, f_chdir,
        f_chdrive, fail, FREE_STR, error, ite_apply, ho, touch_state, touch_calls, h1, h2, h3, h4]

/-- C2: for a drive digit `d` that is `0` or `1`, `file_cd` on exactly `d:` returns
    normally whenever `f_opendir` on `d:` and `f_chdrive(d - '0')` both return `FR_OK`,
    whatever the dummy open returned; the dummy handle is closed exactly when the open
    returned a non-negative one (`touch_calls`), and no `f_chdir` is among the calls
    made. -/
theorem file_cd_drive_only {σ : Type} (E : Env σ) (SYNTAX : Nat) (ptr : Nat) (d : Char)
    (w : World σ) (hd : d = '0' ∨ d = '1')
    (hdir : (E.f_opendir [d, ':'] (touch_state E [d, ':'] w.drv)).1 = FR_OK)
    (hdrv : (E.f_chdrive ((d.toNat : Int) - (('0' : Char).toNat : Int))
      (E.f_opendir [d, ':'] (touch_state E [d, ':'] w.drv)).2).1 = FR_OK) :
    file_cd E SYNTAX ⟨ptr, [d, ':']⟩ true w =
      (Res.ret (),
        ⟨(E.f_chdrive ((d.toNat : Int) - (('0' : Char).toNat : Int))
            (E.f_opendir [d, ':'] (touch_state E [d, ':'] w.drv)).2).2,
          w.calls ++ touch_calls E [d, ':'] w.drv ++
            [Call.f_opendir [d, ':'] FR_OK,
              Call.f_chdrive ((d.toNat : Int) - (('0' : Char).toNat : Int)) FR_OK],
          w.freed ++ [⟨ptr, [d, ':']⟩], w.printed⟩) ∧
    ∀ c ∈ touch_calls E [d, ':'] w.drv ++
        [Call.f_opendir [d, ':'] FR_OK,
          Call.f_chdrive ((d.toNat : Int) - (('0' : Char).toNat : Int)) FR_OK],
      ∀ p r, c ≠ Call.f_chdir p r := by
  constructor
  · rw [file_cd_drive_run E SYNTAX ptr d [] w hd]
    simp at hdrv
    simp [hdir, hdrv, strlen, cstr]
  · intro c hcm p r e
    subst e
    unfold touch_calls at hcm
    split at hcm <;> simp at hcm

/-- Drive 0 of the demonstration volume is selected by `0:`. -/
theorem file_cd_drive_only_witness :
    (file_cd (simEnv (fun _ => 1)) 1 ⟨7, ['0', ':']⟩ true (World.init demoFS)).1 = Res.ret () :=
  congrArg Prod.fst
    (file_cd_drive_only (simEnv (fun _ => 1)) 1 7 '0' (World.init demoFS) (Or.inl rfl)
      (by decide) (by decide)).1

/-- C1: when the path has `strlen` at least 2, its second character is `:` and its first
    character is neither `0` nor `1`, `file_cd` (its terminator check passed) ends in
    `error(15)` having made no call at all: the driver state and the log of calls are
    what they were, and only the argument string has been released. -/
theorem file_cd_rejects_bad_drive {σ : Type} (E : Env σ) (SYNTAX : Nat) (st : STR)
    (w : World σ)
    (hlen : 2 ≤ strlen (NULL_TERMINATE st))
    (hcolon : (NULL_TERMINATE st).getD 1 NUL = ':')
    (h0 : (NULL_TERMINATE st).getD 0 NUL ≠ '0')
    (h1 : (NULL_TERMINATE st).getD 0 NUL ≠ '1') :
    file_cd E SYNTAX st true w =
      (Res.err 15, ⟨w.drv, w.calls, w.freed ++ [st], w.printed⟩) := by
  have hb := char_not_binary _ h0 h1
  simp only [file_cd, bind_run, Cmd.bind, check, pure_run, if_true, hlen, hcolon, true_and,
    List.getD_cons_zero, hb, fail, FREE_STR, error]

/-- Drive `2:` is rejected on the demonstration volume without a call. -/
theorem file_cd_rejects_bad_drive_witness :
    file_cd (simEnv (fun _ => 1)) 1 ⟨7, ['2', ':', 'x']⟩ true (World.init demoFS) =
      (Res.err 15, ⟨demoFS, [], [⟨7, ['2', ':', 'x']⟩], []⟩) :=
  file_cd_rejects_bad_drive (simEnv (fun _ => 1)) 1 ⟨7, ['2', ':', 'x']⟩ (World.init demoFS)
    (by decide) (by decide) (by decide) (by decide)

/-! ## KILL, MKDIR, RENAME -/

/-- One round of the copy loop, call by call. -/
theorem copy_loop_succ {σ : Type} (E : Env σ) (f t : Int) (fuel : Nat) (buf : List Char)
    (tot : Int) (w : World σ) :
    copy_loop E f t (fuel + 1) buf tot w =
      (let r := E.c_read f buf BUFSIZE w.drv
       let c1 := w.calls ++ [Call.c_read f BUFSIZE r.1.1]
       if r.1.1 < 0 then
         (Res.err 30, ⟨E.c_close t (E.c_close f r.2), c1 ++ [Call.c_close f, Call.c_close t],
           w.freed, w.printed⟩)
       else
         let x := E.c_write t r.1.2 r.1.1.toNat r.2
         let c2 := c1 ++ [Call.c_write t r.1.1.toNat x.1]
         if x.1 < r.1.1 then
           (Res.err 60, ⟨E.c_close t (E.c_close f x.2), c2 ++ [Call.c_close f, Call.c_close t],
             w.freed, w.printed⟩)
         else if 0 < r.1.1 then
           copy_loop E f t fuel r.1.2 (wrap32 (tot + x.1)) ⟨x.2, c2, w.freed, w.printed⟩
         else (Res.ret (wrap32 (tot + x.1)), ⟨x.2, c2, w.freed, w.printed⟩)) := by
  by_cases h1 : (E.c_read f buf BUFSIZE w.drv).1.1 < 0
  · simp [copy_loop, bind_run, Cmd.bind, pure_run, c_read, c_write, c_close, error, ite_apply, h1]
  · by_cases h2 : (E.c_write t (E.c_read f buf BUFSIZE w.drv).1.2
        (E.c_read f buf BUFSIZE w.drv).1.1.toNat (E.c_read f buf BUFSIZE w.drv).2).1 <
        (E.c_read f buf BUFSIZE w.drv).1.1
    · simp [copy_loop, bind_run, Cmd.bind, pure_run, c_read, c_write, c_close, error,
        ite_apply, h1, h2]
    · by_cases h3 : 0 < (E.c_read f buf BUFSIZE w.drv).1.1
      · simp [copy_loop, bind_run, Cmd.bind, pure_run, c_read, c_write, c_close, error,
          ite_apply, h1, h2, h3]
      · simp [copy_loop, bind_run, Cmd.bind, pure_run, c_read, c_write, c_close, error,
          ite_apply, h1, h2, h3]

/-- The log of a run of the copy loop: reads and writes, then the two closes when the
    loop ended in an error; exactly the failing call of the log carries a failure code;
    a run that used up its fuel read a positive count in each of its rounds. -/
theorem copy_loop_log {σ : Type} (E : Env σ) (f t : Int) :
    ∀ (fuel : Nat) (buf : List Char) (tot : Int) (w : World σ),
      ∃ rw : List Call,
        (∀ c ∈ rw, is_rw c = true) ∧
        (copy_loop E f t fuel buf tot w).2.calls =
          w.calls ++ rw ++ closes_of f t (copy_loop E f t fuel buf tot w).1 ∧
        rw.filterMap copy_failure = verdict_codes (copy_loop E f t fuel buf tot w).1 ∧
        ((copy_loop E f t fuel buf tot w).1 = Res.spin →
          (read_counts rw).length = fuel ∧ ∀ r ∈ read_counts rw, 0 < r) ∧
        (copy_loop E f t fuel buf tot w).2.freed = w.freed ∧
        (copy_loop E f t fuel buf tot w).2.printed = w.printed := by
  intro fuel
  induction fuel with
  | zero =>
    intro buf tot w
    refine ⟨[], ?_, ?_, ?_, ?_, ?_, ?_⟩ <;> simp [copy_loop, closes_of, verdict_codes, read_counts]
  | succ n ih =>
    intro buf tot w
    rw [copy_loop_succ]
    by_cases h1 : (E.c_read f buf BUFSIZE w.drv).1.1 < 0
    · refine ⟨[Call.c_read f BUFSIZE (E.c_read f buf BUFSIZE w.drv).1.1], ?_, ?_, ?_, ?_, ?_, ?_⟩ <;>
        simp [h1, is_rw, closes_of, verdict_codes, copy_failure]
    · by_cases h2 : (E.c_write t (E.c_read f buf BUFSIZE w.drv).1.2
          (E.c_read f buf BUFSIZE w.drv).1.1.toNat (E.c_read f buf BUFSIZE w.drv).2).1 <
          (E.c_read f buf BUFSIZE w.drv).1.1
      · have hn : ((E.c_read f buf BUFSIZE w.drv).1.1.toNat : Int) =
            (E.c_read f buf BUFSIZE w.drv).1.1 := Int.toNat_of_nonneg (not_lt.mp h1)
        refine ⟨[Call.c_read f BUFSIZE (E.c_read f buf BUFSIZE w.drv).1.1,
          Call.c_write t (E.c_read f buf BUFSIZE w.drv).1.1.toNat
            (E.c_write t (E.c_read f buf BUFSIZE w.drv).1.2
              (E.c_read f buf BUFSIZE w.drv).1.1.toNat (E.c_read f buf BUFSIZE w.drv).2).1],
          ?_, ?_, ?_, ?_, ?_, ?_⟩ <;>
          simp [h1, h2, is_rw, closes_of, verdict_codes, copy_failure, hn]
      · have hn : ((E.c_read f buf BUFSIZE w.drv).1.1.toNat : Int) =
            (E.c_read f buf BUFSIZE w.drv).1.1 := Int.toNat_of_nonneg (not_lt.mp h1)
        by_cases h3 : 0 < (E.c_read f buf BUFSIZE w.drv).1.1
        · obtain ⟨rw, hrw, hcalls, hfail, hspin, hfreed, hprinted⟩ :=
            ih (E.c_read f buf BUFSIZE w.drv).1.2
              (wrap32 (tot + (E.c_write t (E.c_read f buf BUFSIZE w.drv).1.2
                (E.c_read f buf BUFSIZE w.drv).1.1.toNat (E.c_read f buf BUFSIZE w.drv).2).1))
              ⟨(E.c_write t (E.c_read f buf BUFSIZE w.drv).1.2
                (E.c_read f buf BUFSIZE w.drv).1.1.toNat (E.c_read f buf BUFSIZE w.drv).2).2,
                w.calls ++ [Call.c_read f BUFSIZE (E.c_read f buf BUFSIZE w.drv).1.1] ++
                  [Call.c_write t (E.c_read f buf BUFSIZE w.drv).1.1.toNat
                    (E.c_write t (E.c_read f buf BUFSIZE w.drv).1.2
                      (E.c_read f buf BUFSIZE w.drv).1.1.toNat
                      (E.c_read f buf BUFSIZE w.drv).2).1],
                w.freed, w.printed⟩
          refine ⟨Call.c_read f BUFSIZE (E.c_read f buf BUFSIZE w.drv).1.1 ::
            Call.c_write t (E.c_read f buf BUFSIZE w.drv).1.1.toNat
              (E.c_write t (E.c_read f buf BUFSIZE w.drv).1.2
                (E.c_read f buf BUFSIZE w.drv).1.1.toNat (E.c_read f buf BUFSIZE w.drv).2).1 :: rw,
            ?_, ?_, ?_, ?_, ?_, ?_⟩
          · intro c hc
            simp at hc
            rcases hc with rfl | rfl | hc
            · rfl
            · rfl
            · exact hrw c hc
          · simp only [h1, h2, h3, if_true, if_false]
            rw [hcalls]
            simp
          · simp only [h1, h2, h3, if_true, if_false]
            rw [← hfail]
            simp [copy_failure, h1, h2, hn]
          · simp only [h1, h2, h3, if_true, if_false]
            intro hs
            obtain ⟨hl, hp⟩ := hspin hs
            have e : read_counts (Call.c_read f BUFSIZE (E.c_read f buf BUFSIZE w.drv).1.1 ::
                Call.c_write t (E.c_read f buf BUFSIZE w.drv).1.1.toNat
                  (E.c_write t (E.c_read f buf BUFSIZE w.drv).1.2
                    (E.c_read f buf BUFSIZE w.drv).1.1.toNat
                    (E.c_read f buf BUFSIZE w.drv).2).1 :: rw) =
                (E.c_read f buf BUFSIZE w.drv).1.1 :: read_counts rw := by
              simp [read_counts]
            rw [e]
            refine ⟨by simp [hl], ?_⟩
            intro r hr
            rcases List.mem_cons.mp hr with rfl | hr
            · exact h3
            · exact hp r hr
          · simp only [h1, h2, h3, if_true, if_false]
            exact hfreed
          · simp only [h1, h2, h3, if_true, if_false]
            exact hprinted
        · refine ⟨[Call.c_read f BUFSIZE (E.c_read f buf BUFSIZE w.drv).1.1,
            Call.c_write t (E.c_read f buf BUFSIZE w.drv).1.1.toNat
              (E.c_write t (E.c_read f buf BUFSIZE w.drv).1.2
                (E.c_read f buf BUFSIZE w.drv).1.1.toNat (E.c_read f buf BUFSIZE w.drv).2).1],
            ?_, ?_, ?_, ?_, ?_, ?_⟩ <;>
            simp [h1, h2, h3, is_rw, closes_of, verdict_codes, copy_failure, hn]

/-! ## COPY: the command -/

/-- What `file_copy` does behind its separator and terminator checks, call by call. -/
theorem file_copy_run {σ : Type} (E : Env σ) (SYNTAX config : Nat) (st1 st2 : STR)
    (fuel : Nat) (w : World σ) :
    file_copy E SYNTAX config st1 ',' st2 true fuel w =
      (let src := E.c_open (cstr st1.chars) O_RDONLY w.drv
       let c1 := w.calls ++ [Call.c_open (cstr st1.chars) O_RDONLY src.1]
       if src.1 < 0 then (Res.err 15, ⟨src.2, c1, w.freed ++ [st1], w.printed⟩)
       else
         let dst := E.c_open (cstr st2.chars) (O_CREAT ||| O_RDWR) src.2
         let c2 := c1 ++ [Call.c_open (cstr st2.chars) (O_CREAT ||| O_RDWR) dst.1]
         if dst.1 < 0 then
           (Res.err 14, ⟨E.c_close src.1 dst.2, c2 ++ [Call.c_close src.1],
             w.freed ++ [st1, st2], w.printed⟩)
         else
           let lp := copy_loop E src.1 dst.1 fuel (strcpy (NULL_TERMINATE st1)) 0
             ⟨dst.2, c2, w.freed ++ [st1, st2], w.printed⟩
           match lp.1 with
           | Res.ret tot =>
             (Res.ret (), ⟨E.c_close dst.1 (E.c_close src.1 lp.2.drv),
               lp.2.calls ++ [Call.c_close src.1, Call.c_close dst.1], lp.2.freed,
               lp.2.printed ++ [CopyReport.mk tot (freq_khz (wrap32 config))]⟩)
           | Res.err c => (Res.err c, lp.2)
           | Res.spin => (Res.spin, lp.2)) := by
  by_cases h1 : (E.c_open (cstr st1.chars) O_RDONLY w.drv).1 < 0
  · simp [file_copy, bind_run, Cmd.bind, pure_run, check, c_open, c_close, error, FREE_STR,
      ite_apply, NULL_TERMINATE, cstr_strcpy, cstr_append_NUL, h1]
  · by_cases h2 : (E.c_open (cstr st2.chars) (O_CREAT ||| O_RDWR)
        (E.c_open (cstr st1.chars) O_RDONLY w.drv).2).1 < 0
    · simp [file_copy, bind_run, Cmd.bind, pure_run, check, c_open, c_close, error, FREE_STR,
        ite_apply, NULL_TERMINATE, cstr_strcpy, cstr_append_NUL, h1, h2]
    · simp only [file_copy, bind_run, Cmd.bind, pure_run, check, c_open, c_close, error, FREE_STR,
        ite_apply, NULL_TERMINATE, cstr_strcpy, cstr_append_NUL, h1, h2, if_true, if_false,
        ne_eq, not_true_eq_false, List.append_assoc, List.singleton_append]
      split <;> simp_all [printf_copied]

/-- COPY without the comma: syntax error, first string released, no call. -/
theorem file_copy_no_comma {σ : Type} (E : Env σ) (SYNTAX config : Nat) (st1 st2 : STR)
    (tok : Char) (term_ok : Bool) (fuel : Nat) (w : World σ) (htok : tok ≠ ',') :
    file_copy E SYNTAX config st1 tok st2 term_ok fuel w =
      (Res.err SYNTAX, ⟨w.drv, w.calls, w.freed ++ [st1], w.printed⟩) := by
  simp [file_copy, bind_run, Cmd.bind, FREE_STR, error, ite_apply, htok]

/-- COPY whose terminator check fails: syntax error, first string released, no call. -/
theorem file_copy_no_terminator {σ : Type} (E : Env σ) (SYNTAX config : Nat) (st1 st2 : STR)
    (fuel : Nat) (w : World σ) :
    file_copy E SYNTAX config st1 ',' st2 false fuel w =
      (Res.err SYNTAX, ⟨w.drv, w.calls, w.freed ++ [st1], w.printed⟩) := by
  simp [file_copy, bind_run, Cmd.bind, FREE_STR, error, ite_apply, check]

/-- Reads and writes do not change the handles held. -/
theorem audit_rw (rw : List Call) (hrw : ∀ c ∈ rw, is_rw c = true) (held : List Int)
    (rest : List Call) : audit held (rw ++ rest) = audit held rest := by
  induction rw with
  | nil => rfl
  | cons c cs ih =>
    have hc : is_rw c = true := hrw c (by simp)
    have hcs : ∀ x ∈ cs, is_rw x = true := fun x hx => hrw x (by simp [hx])
    cases c <;> simp [is_rw] at hc <;> simp [audit, ih hcs]

/-- Closing the two handles held, source first, leaves none held. -/
theorem audit_two_closes (a b : Int) :
    audit [b, a] [Call.c_close a, Call.c_close b] = some [] := by
  by_cases h : b = a
  · subst h
    simp [audit]
  · have h2 : a ≠ b := fun e => h e.symm
    simp [audit, h, h2, List.erase_cons]

/-- The log of a full COPY run is balanced. -/
theorem audit_copy (p1 p2 : List Char) (fl1 fl2 : Nat) (r1 r2 : Int) (rw : List Call)
    (h1 : 0 ≤ r1) (h2 : 0 ≤ r2) (hrw : ∀ c ∈ rw, is_rw c = true) :
    audit [] ([Call.c_open p1 fl1 r1, Call.c_open p2 fl2 r2] ++ rw ++
      [Call.c_close r1, Call.c_close r2]) = some [] := by
  have e : [Call.c_open p1 fl1 r1, Call.c_open p2 fl2 r2] ++ rw ++
      [Call.c_close r1, Call.c_close r2] =
      Call.c_open p1 fl1 r1 :: Call.c_open p2 fl2 r2 :: (rw ++
      [Call.c_close r1, Call.c_close r2]) := by simp
  rw [e, audit, if_pos h1, audit, if_pos h2, audit_rw rw hrw, audit_two_closes]

/-- C6: on every run of `file_copy` that ends (normal return or any `error`), the calls
    made during the run pass the handle accounting: every handle a successful `open`
    returned is closed, as often as it was handed out, no `close` is made on a handle that
    is not held at that moment, and no handle is held at the end. -/
theorem file_copy_handles_balanced {σ : Type} (E : Env σ) (SYNTAX config : Nat)
    (st1 st2 : STR) (tok : Char) (term_ok : Bool) (fuel : Nat) (w : World σ)
    (hend : (file_copy E SYNTAX config st1 tok st2 term_ok fuel w).1 ≠ Res.spin) :
    ∃ tr : List Call,
      (file_copy E SYNTAX config st1 tok st2 term_ok fuel w).2.calls = w.calls ++ tr ∧
      handles_balanced tr = true := by
  by_cases htok : tok = ','
  · subst htok
    cases term_ok with
    | false =>
      refine ⟨[], ?_, rfl⟩
      rw [file_copy_no_terminator]
      simp
    | true =>
      rw [file_copy_run] at hend ⊢
      dsimp only at hend ⊢
      generalize E.c_open (cstr st1.chars) O_RDONLY w.drv = src at hend ⊢
      obtain ⟨r1, s1⟩ := src
      dsimp only at hend ⊢
      generalize E.c_open (cstr st2.chars) (O_CREAT ||| O_RDWR) s1 = dst at hend ⊢
      obtain ⟨r2, s2⟩ := dst
      dsimp only at hend ⊢
      by_cases h1 : r1 < 0
      · refine ⟨[Call.c_open (cstr st1.chars) O_RDONLY r1], ?_, ?_⟩
        · simp [h1]
        · simp [handles_balanced, audit, not_le.mpr h1]
      · by_cases h2 : r2 < 0
        · refine ⟨[Call.c_open (cstr st1.chars) O_RDONLY r1,
            Call.c_open (cstr st2.chars) (O_CREAT ||| O_RDWR) r2, Call.c_close r1], ?_, ?_⟩
          · simp [h1, h2]
          · simp [handles_balanced, audit, not_lt.mp h1, not_le.mpr h2]
        · simp only [h1, h2, if_false] at hend ⊢
          obtain ⟨rw, hrw, hcalls, -, -, -, -⟩ :=
            copy_loop_log E r1 r2 fuel (strcpy (NULL_TERMINATE st1)) 0
              ⟨s2, w.calls ++ [Call.c_open (cstr st1.chars) O_RDONLY r1] ++
                  [Call.c_open (cstr st2.chars) (O_CREAT ||| O_RDWR) r2],
                w.freed ++ [st1, st2], w.printed⟩
          refine ⟨[Call.c_open (cstr st1.chars) O_RDONLY r1,
            Call.c_open (cstr st2.chars) (O_CREAT ||| O_RDWR) r2] ++ rw ++
            [Call.c_close r1, Call.c_close r2], ?_, ?_⟩
          · generalize copy_loop E r1 r2 fuel (strcpy (NULL_TERMINATE st1)) 0
              ⟨s2, w.calls ++ [Call.c_open (cstr st1.chars) O_RDONLY r1] ++
                  [Call.c_open (cstr st2.chars) (O_CREAT ||| O_RDWR) r2],
                w.freed ++ [st1, st2], w.printed⟩ = lp at hend hcalls ⊢
            obtain ⟨r, w2⟩ := lp
            cases r with
            | ret a => simp [closes_of] at hcalls; simp [hcalls]
            | err c => simp [closes_of] at hcalls; simp [hcalls]
            | spin => simp at hend
          · unfold handles_balanced
            rw [audit_copy _ _ _ _ r1 r2 rw (not_lt.mp h1) (not_lt.mp h2) hrw]
            rfl
  · refine ⟨[], ?_, rfl⟩
    rw [file_copy_no_comma E SYNTAX config st1 st2 tok term_ok fuel w htok]
    simp

/-- The log of COPY on the demonstration volume is balanced. -/
theorem file_copy_handles_balanced_witness :
    handles_balanced (file_copy (simEnv (fun _ => 2)) 1 0 ⟨1, ['a']⟩ ',' ⟨2, ['b']⟩ true 10
      (World.init demoFS)).2.calls = true := by
  obtain ⟨tr, h1, h2⟩ :=
    file_copy_handles_balanced (simEnv (fun _ => 2)) 1 0 ⟨1, ['a']⟩ ⟨2, ['b']⟩ ',' true 10
      (World.init demoFS) (by decide)
  rw [h1]
  exact h2

/-- C7, at an input where it fails: COPY from a source that cannot be opened ends in
    `error(15)` with only the first argument string released; the second string, obtained
    from `stringeval()` before the open, is not in the log of releases. -/
theorem file_copy_leaks_second_string :
    file_copy (simEnv (fun _ => 2)) 1 0 ⟨1, ['q']⟩ ',' ⟨2, ['b']⟩ true 10 (World.init demoFS) =
      (Res.err 15, ⟨demoFS, [Call.c_open ['q'] O_RDONLY (-1)], [⟨1, ['q']⟩], []⟩) ∧
    (⟨2, ['b']⟩ : STR) ∉
      (file_copy (simEnv (fun _ => 2)) 1 0 ⟨1, ['q']⟩ ',' ⟨2, ['b']⟩ true 10
        (World.init demoFS)).2.freed := by
  decide

/-- C9, at an input where it fails: for the register value `0xE0640000` the `int` read
    from it is negative, its arithmetic shift by 29 is -1, the divisor is 0 and the
    division of line 124 is a division by zero; for `0x80640000` the divisor is -3. -/
theorem freq_khz_divides_by_zero :
    freq_divisor (wrap32 3764649984) = 0 ∧ freq_khz (wrap32 3764649984) = none ∧
    freq_divisor (wrap32 2154037248) = -3 := by
  decide

/-! ## COPY on the simulated volume -/

/-- A value in the non-negative range of `int` is held as it is. -/
theorem wrap32_small (x : Int) (h0 : 0 ≤ x) (h1 : x < 2147483648) : wrap32 x = x := by
  unfold wrap32
  omega

/-- For a register value with bit 31 clear the divisor of line 124 is the 3-bit field
    plus one, between 1 and 4, and `freq_khz` is the 12-bit field times 1000 divided by
    it. -/
theorem freq_khz_of_bit31_clear (config : Nat) (h : config < 2147483648) :
    freq_divisor (wrap32 config) = ((config / 536870912 + 1 : Nat) : Int) ∧
    1 ≤ freq_divisor (wrap32 config) ∧ freq_divisor (wrap32 config) ≤ 4 ∧
    freq_khz (wrap32 config) =
      some ((config / 65536 % 4096) * 1000 / (config / 536870912 + 1)) := by
  have hw : wrap32 (config : Int) = (config : Int) := wrap32_small _ (by omega) (by omega)
  have hd : freq_divisor (config : Int) = ((config / 536870912 + 1 : Nat) : Int) := by
    unfold freq_divisor
    rw [Int.shiftRight_eq_div_pow]
    norm_num
  have hq : config / 536870912 ≤ 3 := by omega
  refine ⟨by rw [hw, hd], by rw [hw, hd]; omega, by rw [hw, hd]; omega, ?_⟩
  unfold freq_khz
  rw [hw, hd]
  have hne : ¬ (((config / 536870912 + 1 : Nat) : Int) = 0) := by omega
  rw [if_neg hne, Int.shiftRight_eq_div_pow]
  apply congrArg some
  have e1 : ((config : Int) / ((2 ^ 16 : Nat) : Int)) % 4096 * 1000 =
      ((config / 65536 % 4096 * 1000 : Nat) : Int) := by
    norm_num
  rw [e1, Int.tdiv_eq_ediv (by omega) (by omega)]
  rw [← Int.ofNat_ediv]
  have hb : config / 65536 % 4096 * 1000 / (config / 536870912 + 1) < 4294967296 := by
    have h1 : config / 65536 % 4096 * 1000 ≤ 4095000 := by omega
    calc config / 65536 % 4096 * 1000 / (config / 536870912 + 1)
        ≤ config / 65536 % 4096 * 1000 := Nat.div_le_self _ _
      _ < 4294967296 := by omega
  generalize config / 65536 % 4096 * 1000 / (config / 536870912 + 1) = q at hb ⊢
  omega

end PBasic
